import Mathlib

/-
Shallow embedding of the line-handling core of the prometheus-aggregator
repository (file handle_line.go).  Byte slices are modelled as lists of
naturals (each entry a byte value 0..255; no arithmetic is performed on
them, only comparisons).  Go functions returning (value, error) become
functions into an explicit result type; a Go run-time panic (index out of
range, slice bounds out of range) is modelled by a dedicated result
constructor, since a panic is neither a returned value nor a returned
error.  External black boxes (the gzip codec, encoding/json, strconv
ParseFloat, the registry behind the observer interface) are parameters of
the embedding, exactly as wide as their use sites in handle_line.go.
-/

namespace PromAgg

/-- Byte strings, as in Go byte slices. -/
abbrev Bytes := List Nat

/-- Result of a Go function returning (value, error), extended with a
constructor for a run-time panic escaping the function. -/
inductive Res (α : Type) where
  | ok : α → Res α
  | err : String → Res α
  | panic : Res α
deriving DecidableEq

/-- Modelled from the spec: the closed metric-kind enum
(Counter, Gauge, Histogram) of section 3; the declaring Go type lives in
the registry file, which is not part of src/. -/
inductive MetricKind where
  | counter
  | gauge
  | histogram
deriving DecidableEq

/-- Modelled from the spec: the observation record of section 3 (name;
optional kind, help, buckets; label set; optional value).  handle_line.go
reads and writes the fields Name, Labels and Value; the Go zero value of
the struct has every field absent, which the defaults reproduce.  The
numeric field type is a parameter F (Go float64 is external to the core
being verified). -/
structure observation (F : Type) where
  Name : Bytes := []
  Kind : Option MetricKind := none
  Help : Option Bytes := none
  Buckets : Option (List F) := none
  Labels : List (Bytes × Bytes) := []
  Value : Option F := none
deriving DecidableEq

instance {F : Type} : Inhabited (observation F) := ⟨{}⟩

/-- The abstract gzip inflate primitive (compress/gzip is out of scope,
a black-box codec): bytes in, decompressed bytes or an error out. -/
abbrev GUnzip := Bytes → Except String Bytes

/-- The abstract JSON decoder (encoding/json is external): bytes in,
an observation or an error out. -/
abbrev JsonDec (F : Type) := Bytes → Res (observation F)

/-- The abstract strconv.ParseFloat: the trimmed value fragment, parsed
to a numeric F or failing. -/
abbrev ParseFl (F : Type) := Bytes → Option F

/-- The abstract observer (the registry): a state transition consuming an
observation, returning the new state and an optional error. -/
abbrev Observer (F σ : Type) := observation F → σ → σ × Option String

instance {ε α : Type} [DecidableEq ε] [DecidableEq α] : DecidableEq (Except ε α) :=
  fun a b =>
    match a, b with
    | .ok x, .ok y => if h : x = y then .isTrue (by rw [h]) else .isFalse (by simp [h])
    | .error x, .error y => if h : x = y then .isTrue (by rw [h]) else .isFalse (by simp [h])
    | .ok _, .error _ => .isFalse (by simp)
    | .error _, .ok _ => .isFalse (by simp)

/-! ### Byte-level helpers (bytes / unicode standard library behaviour) -/

/-- ASCII whitespace as used by bytes.TrimSpace on ASCII data: space and
the control characters tab through carriage return. -/
def isSpaceByte (b : Nat) : Bool := b == 32 || (9 ≤ b && b ≤ 13)

/-- bytes.TrimSpace restricted to ASCII whitespace. -/
def trimSpace (l : Bytes) : Bytes :=
  ((l.dropWhile isSpaceByte).reverse.dropWhile isSpaceByte).reverse

/-- bytes.IndexByte: index of the first occurrence, none when absent. -/
def indexByte : Bytes → Nat → Option Nat
  | [], _ => none
  | c :: rest, b => if c = b then some 0 else (indexByte rest b).map (· + 1)

/-- bytes.LastIndexByte: index of the last occurrence, none when absent. -/
def lastIndexByte : Bytes → Nat → Option Nat
  | [], _ => none
  | c :: rest, b =>
    match lastIndexByte rest b with
    | some i => some (i + 1)
    | none => if c = b then some 0 else none

/-- bytes.ContainsRune for an ASCII rune: membership of the byte. -/
def containsByte (l : Bytes) (b : Nat) : Bool := l.contains b

/-- bytes.Split with a one-byte separator: splitting the empty input
yields one empty piece, as in Go. -/
def splitOnByte (b : Nat) : Bytes → List Bytes
  | [] => [[]]
  | c :: rest =>
    match splitOnByte b rest with
    | [] => [[]]
    | h :: t => if c = b then [] :: h :: t else (c :: h) :: t

/-- Go map assignment m[k] = v on an association list: replace the
binding of k when present, append it otherwise. -/
def mapInsert (k v : Bytes) (m : List (Bytes × Bytes)) : List (Bytes × Bytes) :=
  match m with
  | [] => [(k, v)]
  | (k', v') :: rest => if k' = k then (k, v) :: rest else (k', v') :: mapInsert k v rest

/-! ### Decompressor (isGzipped, unZipData, transparentDecompressGZip) -/

/-- isGzipped from handle_line.go: length at least 2 and the first two
bytes equal 31 and 139 (the gzip magic 0x1F 0x8B). -/
def isGzipped (packet : Bytes) : Bool :=
  decide (2 ≤ packet.length) && (packet.getD 0 0 == 31) && (packet.getD 1 0 == 139)

/-- unZipData from handle_line.go: run the black-box gzip codec on the
data, propagating its error. -/
def unZipData (g : GUnzip) (data : Bytes) : Except String Bytes := g data

/-- transparentDecompressGZip from handle_line.go: inflate when the gzip
magic matches, otherwise return the input unchanged with no error. -/
def transparentDecompressGZip (g : GUnzip) (data : Bytes) : Except String Bytes :=
  if isGzipped data then unZipData g data else .ok data

/-! ### The text-grammar parser (prometheusUnmarshal) and parseLine -/

/-- The label-pair loop of prometheusUnmarshal, over the comma-split
items of the brace section.  For each item: no equals sign means the item
is skipped (the Go loop continues); otherwise the part after the first
equals sign is the value v.  Go then evaluates v at index 0, which panics
when v is empty; when the quote check passes and v has length one (a lone
double quote), the slice v from 1 to length-1 has reversed bounds and
panics as well.  An improperly quote-delimited value is an error. -/
def parseLabels (pairs : List Bytes) (acc : List (Bytes × Bytes)) :
    Res (List (Bytes × Bytes)) :=
  match pairs with
  | [] => .ok acc
  | pr :: rest =>
    match indexByte pr 61 with
    | none => parseLabels rest acc
    | some z =>
      let v := pr.drop (z + 1)
      if v = [] then .panic
      else if v.getD 0 0 ≠ 34 ∨ v.getLast? ≠ some 34 then
        .err "bad format: label value must be wrapped in quotes"
      else if v.length = 1 then .panic
      else parseLabels rest (mapInsert (pr.take z) ((v.drop 1).dropLast) acc)

/-- prometheusUnmarshal from handle_line.go, threading the observation it
mutates (its only caller passes the zero observation).  Stages, in source
order: trim the line; find the last space (absent, or at position 0,
means an error); split into identifier and value fragments, both
trimmed; parse the value with the black-box float parser; require an
opening brace in the identifier and a closing brace at its end; forbid
spaces in the labels fragment; run the label-pair loop; finally set
Name, Labels and Value on the observation.  Error strings keep the Go
messages minus the interpolated fragments. -/
def prometheusUnmarshal {F : Type} (pf : ParseFl F) (p0 : Bytes) (o : observation F) :
    Res (observation F) :=
  let p := trimSpace p0
  match lastIndexByte p 32 with
  | none => .err "bad format: could not find space"
  | some x =>
    if x < 1 then .err "bad format: could not find space"
    else
      let id := trimSpace (p.take x)
      let val := trimSpace (p.drop (x + 1))
      match pf val with
      | none => .err "bad value"
      | some value =>
        match indexByte id 123 with
        | none => .err "bad format: could not find opening brace"
        | some y =>
          if id.getLast? ≠ some 125 then
            .err "bad format: could not find terminating brace"
          else
            let name := id.take y
            let labels := (id.drop (y + 1)).dropLast
            if containsByte labels 32 then
              .err "bad format: labels section may not contain spaces"
            else
              match parseLabels (splitOnByte 44 labels) [] with
              | .panic => .panic
              | .err e => .err e
              | .ok lm => .ok { o with Name := name, Labels := lm, Value := some value }

/-- parseLine from handle_line.go: empty input is an error; a first byte
equal to 123 (opening brace) routes to the JSON decoder; anything else
routes to the text grammar, started on the zero observation (the Go named
return value). -/
def parseLine {F : Type} (jd : JsonDec F) (pf : ParseFl F) (p : Bytes) :
    Res (observation F) :=
  if p.length ≤ 0 then .err "invalid (empty) line"
  else if p.getD 0 0 = 123 then jd p
  else prometheusUnmarshal pf p {}

/-! ### handleLine and the two ingestion adapters -/

/-- handleLine from handle_line.go, instrumented: besides the Go result
(the accepted name, or the wrapped error) it returns the observer state
after the call and how many times observe was invoked.  Go additionally
returns the observation name alongside an observation error; no caller
reads the name on an error path, so the error constructor keeps only the
message. -/
def handleLine {F σ : Type} (jd : JsonDec F) (pf : ParseFl F) (ob : Observer F σ)
    (line : Bytes) (s : σ) : Res Bytes × σ × Nat :=
  match parseLine jd pf line with
  | .panic => (.panic, s, 0)
  | .err e => (.err ("parse error: " ++ e), s, 0)
  | .ok obs =>
    match ob obs s with
    | (s', some e) => (.err ("observation error: " ++ e), s', 1)
    | (s', none) => (.ok obs.Name, s', 1)

/-- readFromPacketConn from handle_line.go, over one read outcome of the
packet connection: a transport read error is returned as such, otherwise
the datagram bytes are passed through transparentDecompressGZip, whose
error is returned to the caller as well. -/
def readFromPacketConn (g : GUnzip) (ev : Except String Bytes) : Res Bytes :=
  match ev with
  | .error e => .err e
  | .ok data =>
    match transparentDecompressGZip g data with
    | .ok d => .ok d
    | .error e => .err e

/-- How a run of the packet-adapter loop ended. -/
inductive PacketExit where
  | surfaced : String → PacketExit
  | crashed : PacketExit
  | exhausted : PacketExit
deriving DecidableEq

/-- Trace of a packet-adapter run: how it ended, the final observer
state, the names logged as accepted, how many datagrams were logged as
rejected, and how many observe calls were made. -/
structure PacketRun (σ : Type) where
  exit : PacketExit
  finalState : σ
  accepted : List Bytes
  rejected : Nat
  observeCalls : Nat
deriving DecidableEq

/-- forwardPacketConn from handle_line.go over a finite sequence of read
outcomes: a readFromPacketConn error (transport read error, or a
decompression error surfaced through it) ends the loop with that error;
a handleLine error is logged as a rejected line and the loop continues;
an accepted line is logged and the loop continues.  Exhausting the
modelled sequence corresponds to the real loop blocking on the next
datagram. -/
def forwardPacketConn {F σ : Type} (g : GUnzip) (jd : JsonDec F) (pf : ParseFl F)
    (ob : Observer F σ) (events : List (Except String Bytes)) (s : σ) : PacketRun σ :=
  match events with
  | [] => ⟨.exhausted, s, [], 0, 0⟩
  | ev :: rest =>
    match readFromPacketConn g ev with
    | .err e => ⟨.surfaced e, s, [], 0, 0⟩
    | .panic => ⟨.crashed, s, [], 0, 0⟩
    | .ok packet =>
      match handleLine jd pf ob packet s with
      | (.panic, s', n) => ⟨.crashed, s', [], 0, n⟩
      | (.err _, s', n) =>
        let r := forwardPacketConn g jd pf ob rest s'
        ⟨r.exit, r.finalState, r.accepted, r.rejected + 1, r.observeCalls + n⟩
      | (.ok name, s', n) =>
        let r := forwardPacketConn g jd pf ob rest s'
        ⟨r.exit, r.finalState, name :: r.accepted, r.rejected, r.observeCalls + n⟩

/-- How a run of the stream-adapter loop ended: the scanner ran out of
lines (EOF or transport read error), the strict policy stopped the
connection, or a panic escaped. -/
inductive StreamExit where
  | scanEnd : StreamExit
  | strictStop : StreamExit
  | crashed : StreamExit
deriving DecidableEq

/-- Trace of a stream-adapter run, with the same fields as PacketRun. -/
structure StreamRun (σ : Type) where
  exit : StreamExit
  finalState : σ
  accepted : List Bytes
  rejected : Nat
  observeCalls : Nat
deriving DecidableEq

/-- handleConn from handle_line.go over the finite list of scanned
lines.  Per line: a decompression error is logged as rejected and the
loop continues (with no strict check on this path); a handleLine error
is logged as rejected and, under the strict policy, ends the connection,
otherwise the loop continues; an accepted line is logged and the loop
continues. -/
def handleConn {F σ : Type} (g : GUnzip) (jd : JsonDec F) (pf : ParseFl F)
    (ob : Observer F σ) (strict : Bool) (lines : List Bytes) (s : σ) : StreamRun σ :=
  match lines with
  | [] => ⟨.scanEnd, s, [], 0, 0⟩
  | line :: rest =>
    match transparentDecompressGZip g line with
    | .error _ =>
      let r := handleConn g jd pf ob strict rest s
      ⟨r.exit, r.finalState, r.accepted, r.rejected + 1, r.observeCalls⟩
    | .ok data =>
      match handleLine jd pf ob data s with
      | (.panic, s', n) => ⟨.crashed, s', [], 0, n⟩
      | (.err _, s', n) =>
        if strict then ⟨.strictStop, s', [], 1, n⟩
        else
          let r := handleConn g jd pf ob strict rest s'
          ⟨r.exit, r.finalState, r.accepted, r.rejected + 1, r.observeCalls + n⟩
      | (.ok name, s', n) =>
        let r := handleConn g jd pf ob strict rest s'
        ⟨r.exit, r.finalState, name :: r.accepted, r.rejected, r.observeCalls + n⟩

/-! ### Projection of the value fragment, and concrete instances used by
the closed theorems below -/

/-- The value fragment of a text-grammar line: what prometheusUnmarshal
hands to the float parser (the trimmed bytes after the last space of the
trimmed line). -/
def valueField (p : Bytes) : Bytes :=
  match lastIndexByte (trimSpace p) 32 with
  | some x => trimSpace ((trimSpace p).drop (x + 1))
  | none => []

/-- A concrete float parser over F equals Nat: the single byte 49 (the
digit one) parses to 1, everything else fails. -/
def pfNat : ParseFl Nat := fun l => if l = [49] then some 1 else none

/-- A concrete JSON decoder accepting every input with the zero
observation. -/
def jdOk : JsonDec Nat := fun _ => .ok {}

/-- A concrete observer counting its invocations and never failing. -/
def obCount : Observer Nat Nat := fun _ s => (s + 1, none)

/-- A concrete gzip codec failing on every input, as on a corrupt or
truncated stream. -/
def gzFail : GUnzip := fun _ => .error "corrupt"

/-- The text line: byte 97 (a), opening brace, closing brace, space,
byte 49 (the digit one). -/
def goodLine : Bytes := [97, 123, 125, 32, 49]

/-- A concrete gzip codec inflating the framed record 31,139,9 to
goodLine and failing on everything else. -/
def gzMap : GUnzip := fun x => if x = [31, 139, 9] then .ok goodLine else .error "bad"

/-- The text line name, opening brace, k, equals, closing brace, space,
digit one: its only label item has an empty value part after the equals
sign. -/
def lineEmptyVal : Bytes := [110, 97, 109, 101, 123, 107, 61, 125, 32, 49]

/-- The text line name, opening brace, f o o, closing brace, space,
digit one: its only label item has no equals sign. -/
def lineNoEquals : Bytes := [110, 97, 109, 101, 123, 102, 111, 111, 125, 32, 49]

/-- The text line name, opening brace, k, equals, v, closing brace,
space, digit one: its only label item has an unquoted value. -/
def lineUnquoted : Bytes := [110, 97, 109, 101, 123, 107, 61, 118, 125, 32, 49]

/-- The observation parseLine produces from goodLine. -/
def obsGood : observation Nat := { Name := [97], Labels := [], Value := some 1 }

/-- The two-datagram packet sequence: a corrupt gzip-framed datagram,
then a well-formed raw datagram. -/
def packetEvents : List (Except String Bytes) :=
  [Except.ok [31, 139, 0], Except.ok goodLine]

/-- The two-line stream: a corrupt gzip-framed line, then a well-formed
raw line. -/
def streamLines : List Bytes := [[31, 139, 0], goodLine]

/-! ### The claims -/

/-- Claim C8: isGzipped returns true exactly when the input has length at
least 2 and its first two bytes are 31 and 139 (0x1F, 0x8B). -/
theorem isGzipped_iff_magic (p : Bytes) :
    isGzipped p = true ↔ 2 ≤ p.length ∧ p.take 2 = [31, 139] := by
  match p with
  | [] => simp [isGzipped]
  | [a] => simp [isGzipped]
  | a :: b :: rest =>
    simp [isGzipped, List.getD]

/-- Claim C7: transparentDecompressGZip returns its input unchanged with
no error whenever the gzip magic does not match; when it matches, the
result is exactly that of the gzip codec, so in particular a corrupt or
truncated stream's error is returned to the caller, never swallowed. -/
theorem transparentDecompressGZip_cases (g : GUnzip) (data : Bytes) :
    (isGzipped data = false → transparentDecompressGZip g data = Except.ok data) ∧
    (isGzipped data = true → transparentDecompressGZip g data = g data) ∧
    (∀ e, isGzipped data = true → g data = Except.error e →
      transparentDecompressGZip g data = Except.error e) := by
  refine ⟨fun h => ?_, fun h => ?_, fun e h hg => ?_⟩
  · simp [transparentDecompressGZip, h]
  · simp [transparentDecompressGZip, unZipData, h]
  · simp [transparentDecompressGZip, unZipData, h, hg]

/-- Concrete run of the C7 policy: the corrupt framed input propagates
the codec error, the unframed input passes through unchanged. -/
theorem transparentDecompressGZip_cases_witness :
    transparentDecompressGZip gzFail [31, 139, 0] = Except.error "corrupt" ∧
    transparentDecompressGZip gzFail [97] = Except.ok [97] :=
  ⟨(transparentDecompressGZip_cases gzFail [31, 139, 0]).2.2 "corrupt" (by decide) rfl,
   (transparentDecompressGZip_cases gzFail [97]).1 (by decide)⟩

/-- Claim C6: handleLine invokes observe exactly once when parseLine
succeeds, and never when parseLine fails; on a parse failure (error or
panic) the observer state comes back unchanged, so a parse error leaves
the registry untouched. -/
theorem handleLine_observe_gating {F σ : Type} (jd : JsonDec F) (pf : ParseFl F)
    (ob : Observer F σ) (line : Bytes) (s : σ) :
    (handleLine jd pf ob line s).2.2 =
      (match parseLine jd pf line with | .ok _ => 1 | _ => 0) ∧
    (handleLine jd pf ob line s).2.1 =
      (match parseLine jd pf line with | .ok o => (ob o s).1 | _ => s) := by
  unfold handleLine
  cases h : parseLine jd pf line with
  | ok o =>
    rcases hob : ob o s with ⟨s', e⟩
    cases e <;> simp [hob]
  | err e => simp
  | panic => simp

/-- Claim C3 (amended): parseLine dispatches on the first byte of the
record, not the first non-whitespace byte: a record whose first byte is
123 (opening brace) goes to the JSON decoder, and a nonempty record with
any other first byte goes to the text grammar on the zero observation. -/
theorem parseLine_dispatch_first_byte {F : Type} (jd : JsonDec F) (pf : ParseFl F)
    (b : Nat) (p : Bytes) :
    (parseLine jd pf (123 :: p) = jd (123 :: p)) ∧
    (b ≠ 123 → parseLine jd pf (b :: p) = prometheusUnmarshal pf (b :: p) {}) := by
  constructor
  · simp [parseLine]
  · intro hb
    simp [parseLine, hb]

/-- Claim C3 counterexample: the record space, opening brace, closing
brace has an opening brace as its first non-whitespace byte, yet
parseLine does not hand it to the JSON decoder (which here accepts every
input): it goes to the text grammar and is rejected. -/
theorem parseLine_leading_space_not_json :
    ([32, 123, 125].dropWhile isSpaceByte).getD 0 0 = 123 ∧
    parseLine jdOk pfNat [32, 123, 125] ≠ jdOk [32, 123, 125] := by decide

/-- Claim C4: on the line of lineEmptyVal — a label pair whose value part
after the equals sign is empty — the text parser indexes the empty value
at position 0 and panics (index out of range) instead of returning a
decode error: the run neither yields an observation nor an error. -/
theorem prometheusUnmarshal_empty_value_panics :
    prometheusUnmarshal pfNat lineEmptyVal {} = Res.panic := by decide

/-- Claim C10: two records whose transparent decompression succeeds with
identical byte sequences decode, through parseLine, to identical
observations. -/
theorem parseLine_after_decompress_congruent {F : Type} (g : GUnzip) (jd : JsonDec F)
    (pf : ParseFl F) (a b d1 d2 : Bytes)
    (_h1 : transparentDecompressGZip g a = Except.ok d1)
    (_h2 : transparentDecompressGZip g b = Except.ok d2)
    (h12 : d1 = d2) :
    parseLine jd pf d1 = parseLine jd pf d2 := by
  rw [h12]

/-- Concrete instance for C10: a gzip-framed record inflating to
goodLine and the raw goodLine itself decompress to the same bytes and
decode identically. -/
theorem parseLine_after_decompress_congruent_witness :
    transparentDecompressGZip gzMap [31, 139, 9] = Except.ok goodLine ∧
    transparentDecompressGZip gzMap goodLine = Except.ok goodLine ∧
    parseLine jdOk pfNat goodLine = parseLine jdOk pfNat goodLine :=
  ⟨by decide, by decide,
   parseLine_after_decompress_congruent gzMap jdOk pfNat [31, 139, 9] goodLine
     goodLine goodLine (by decide) (by decide) rfl⟩

/-- Claim C9: every observation the text-grammar parser produces
successfully (started, as parseLine starts it, on the zero observation)
is a value record: its Value is present and equal to what the float
parser returned on the value fragment, and it carries no kind, help or
bucket metadata. -/
theorem prometheusUnmarshal_value_record {F : Type} (pf : ParseFl F) (p : Bytes)
    (o : observation F) (h : prometheusUnmarshal pf p {} = Res.ok o) :
    o.Value = pf (valueField p) ∧ o.Value.isSome ∧
    o.Kind = none ∧ o.Help = none ∧ o.Buckets = none := by
  simp only [prometheusUnmarshal] at h
  split at h
  · exact absurd h (by simp)
  next x hx =>
    split at h
    · exact absurd h (by simp)
    · split at h
      · exact absurd h (by simp)
      next value hv =>
        split at h
        · exact absurd h (by simp)
        next y hy =>
          split at h
          · exact absurd h (by simp)
          · split at h
            · exact absurd h (by simp)
            · split at h
              · exact absurd h (by simp)
              · exact absurd h (by simp)
              next lm hlm =>
                rw [Res.ok.injEq] at h
                subst h
                refine ⟨?_, by simp, rfl, rfl, rfl⟩
                simp only [valueField, hx, hv]

/-- Concrete instance for C9: goodLine parses successfully and the
resulting observation is the value record obsGood. -/
theorem prometheusUnmarshal_value_record_witness :
    prometheusUnmarshal pfNat goodLine {} = Res.ok obsGood ∧
    (obsGood.Value = pfNat (valueField goodLine) ∧ obsGood.Value.isSome ∧
     obsGood.Kind = none ∧ obsGood.Help = none ∧ obsGood.Buckets = none) :=
  ⟨by decide, prometheusUnmarshal_value_record pfNat goodLine obsGood (by decide)⟩

/-- Claim C5 (amended): inside the brace section, an item with no equals
sign is silently skipped by the label loop, neither rejected nor added;
an item containing an equals sign whose nonempty value part is not
quote-delimited at both ends is rejected — when such an item leads the
brace section of an otherwise well-formed line, prometheusUnmarshal
returns the quote DecodeError for the whole line. -/
theorem prometheusUnmarshal_label_item_policy {F : Type} (pf : ParseFl F)
    (p0 : Bytes) (o : observation F) (pr : Bytes) (restPairs : List Bytes)
    (acc : List (Bytes × Bytes)) :
    (indexByte pr 61 = none →
      parseLabels (pr :: restPairs) acc = parseLabels restPairs acc) ∧
    (∀ x value y z,
      lastIndexByte (trimSpace p0) 32 = some x →
      1 ≤ x →
      pf (trimSpace ((trimSpace p0).drop (x + 1))) = some value →
      indexByte (trimSpace ((trimSpace p0).take x)) 123 = some y →
      (trimSpace ((trimSpace p0).take x)).getLast? = some 125 →
      containsByte (((trimSpace ((trimSpace p0).take x)).drop (y + 1)).dropLast) 32 = false →
      splitOnByte 44 (((trimSpace ((trimSpace p0).take x)).drop (y + 1)).dropLast) =
        pr :: restPairs →
      indexByte pr 61 = some z →
      pr.drop (z + 1) ≠ [] →
      ((pr.drop (z + 1)).getD 0 0 ≠ 34 ∨ (pr.drop (z + 1)).getLast? ≠ some 34) →
      prometheusUnmarshal pf p0 o =
        Res.err "bad format: label value must be wrapped in quotes") := by
  constructor
  · intro hno
    simp only [parseLabels, hno]
  · intro x value y z hx hx1 hv hy hlast hsp hsplit hz hvne hq
    have hx1' : ¬ x < 1 := by omega
    simp only [prometheusUnmarshal, hx, if_neg hx1', hv, hy]
    rw [if_neg (by simp [hlast])]
    simp only [hsp, Bool.false_eq_true, if_false, hsplit, parseLabels, hz,
      if_neg hvne, if_pos hq]

/-- Concrete instance for C5: on lineUnquoted, whose single label item
has the unquoted value v after its equals sign, the whole line is
rejected with the quote DecodeError. -/
theorem prometheusUnmarshal_label_item_policy_witness :
    prometheusUnmarshal pfNat lineUnquoted ({} : observation Nat) =
      Res.err "bad format: label value must be wrapped in quotes" :=
  (prometheusUnmarshal_label_item_policy pfNat lineUnquoted {} [107, 61, 118] [] []).2
    9 1 4 1 (by decide) (by decide) (by decide) (by decide) (by decide) (by decide)
    (by decide) (by decide) (by decide) (by decide)

/-- Claim C5 counterexample: the line lineNoEquals has the single
brace-section item f o o with no equals sign; prometheusUnmarshal
accepts the line and silently skips the item, yielding an observation
with an empty label set, instead of returning a DecodeError. -/
theorem prometheusUnmarshal_skips_item_without_equals :
    indexByte [102, 111, 111] 61 = none ∧
    splitOnByte 44 [102, 111, 111] = [[102, 111, 111]] ∧
    prometheusUnmarshal pfNat lineNoEquals {} =
      Res.ok { Name := [110, 97, 109, 101], Labels := [], Value := some 1 } := by
  decide

/-- Claim C1 (amended): in the packet loop, a datagram whose decode or
observe step fails is logged as rejected and the loop continues to the
next datagram; a transport-level read error — and equally a
decompression error, which readFromPacketConn returns to the loop the
same way — terminates the loop and is surfaced to the caller. -/
theorem forwardPacketConn_error_policy {F σ : Type} (g : GUnzip) (jd : JsonDec F)
    (pf : ParseFl F) (ob : Observer F σ) (ev : Except String Bytes)
    (rest : List (Except String Bytes)) (s : σ) :
    (∀ e, readFromPacketConn g ev = Res.err e →
      forwardPacketConn g jd pf ob (ev :: rest) s = ⟨.surfaced e, s, [], 0, 0⟩) ∧
    (∀ data e, ev = Except.ok data →
      transparentDecompressGZip g data = Except.error e →
      forwardPacketConn g jd pf ob (ev :: rest) s = ⟨.surfaced e, s, [], 0, 0⟩) ∧
    (∀ packet msg s' n, readFromPacketConn g ev = Res.ok packet →
      handleLine jd pf ob packet s = (Res.err msg, s', n) →
      forwardPacketConn g jd pf ob (ev :: rest) s =
        { forwardPacketConn g jd pf ob rest s' with
            rejected := (forwardPacketConn g jd pf ob rest s').rejected + 1,
            observeCalls := (forwardPacketConn g jd pf ob rest s').observeCalls + n }) := by
  refine ⟨fun e he => ?_, fun data e hev hd => ?_, fun packet msg s' n hr hl => ?_⟩
  · simp only [forwardPacketConn, he]
  · subst hev
    simp only [forwardPacketConn, readFromPacketConn, hd]
  · simp only [forwardPacketConn, hr, hl]

/-- Claim C1 counterexample: with a codec that fails on the corrupt
gzip-framed first datagram of packetEvents, the packet loop terminates
at once and surfaces the decompression error: the well-formed second
datagram is never decoded or observed (no accepted name, no observe
call), and the failure is not logged as a rejected line — although the
claim requires a decompression failure to be logged and skipped. -/
theorem forwardPacketConn_decompress_error_aborts :
    transparentDecompressGZip gzFail [31, 139, 0] = Except.error "corrupt" ∧
    handleLine jdOk pfNat obCount goodLine 0 = (Res.ok [97], 1, 1) ∧
    forwardPacketConn gzFail jdOk pfNat obCount packetEvents 0 =
      ⟨.surfaced "corrupt", 0, [], 0, 0⟩ := by
  decide

/-- Claim C2 (amended): in the stream adapter under the strict policy,
the first line rejected by decode or observe terminates processing of
that connection — the run does not depend on the remaining lines; a line
rejected by decompression, however, is logged and skipped even under
strict, and processing continues with the next line. -/
theorem handleConn_strict_policy {F σ : Type} (g : GUnzip) (jd : JsonDec F)
    (pf : ParseFl F) (ob : Observer F σ) (line : Bytes) (rest : List Bytes) (s : σ) :
    (∀ e, transparentDecompressGZip g line = Except.error e →
      handleConn g jd pf ob true (line :: rest) s =
        { handleConn g jd pf ob true rest s with
            rejected := (handleConn g jd pf ob true rest s).rejected + 1 }) ∧
    (∀ data msg s' n, transparentDecompressGZip g line = Except.ok data →
      handleLine jd pf ob data s = (Res.err msg, s', n) →
      handleConn g jd pf ob true (line :: rest) s = ⟨.strictStop, s', [], 1, n⟩) := by
  refine ⟨fun e he => ?_, fun data msg s' n hd hl => ?_⟩
  · simp only [handleConn, he]
  · simp [handleConn, hd, hl]

/-- Claim C2 counterexample: under the strict policy, the first line of
streamLines is rejected by decompression (the codec fails on it), yet the
run does not stop there: the second line is decompressed, decoded and
observed — one rejected line and one accepted line with one observe
call — refuting that the first rejected line terminates the
connection. -/
theorem handleConn_strict_decompress_continues :
    transparentDecompressGZip gzFail [31, 139, 0] = Except.error "corrupt" ∧
    handleConn gzFail jdOk pfNat obCount true streamLines 0 =
      ⟨.scanEnd, 1, [[97]], 1, 1⟩ := by
  decide

end PromAgg
